import Mathlib

/-!
# Verification of the bowl-pickem Flask application

A shallow embedding, in Lean 4, of the data model and the operations of the
bowl-pickem repository (`src/app.py` and `src/update_winners_live.py`),
together with theorems settling the specification's claims about it.

Modelling conventions:

* Every CSV file is a list of typed rows; a possibly-missing file is an
  `Option` of such a list (`none` = the file does not exist on disk).
* pandas `NaN` string cells are modelled as `""`; numeric cells that the code
  routes through `int(...)` with a `try/except` are modelled as `Option Int`.
* Python `str.lower()` / `str.strip()` are modelled by `lowerStr` / `trimStr`
  below (character-wise, which agrees with Python on the ASCII data these CSVs
  hold).
* Request inputs are taken after their initial `.strip()` normalisation.
* pandas `sort_values` is modelled with a stable insertion sort; the pandas
  implementation uses an unstable quicksort, so only order properties that are
  independent of the tie order are proved.
-/

namespace BowlPickem

/-! ## String helpers (models of Python `str.lower`, `str.strip`, `in`) -/

/-- Model of Python `str.lower()` (character-wise; exact on ASCII data). -/
def lowerStr (s : String) : String := String.mk (s.data.map Char.toLower)

/-- Whitespace characters stripped by Python `str.strip()` (the ones occurring
in this application's CSV data). -/
def wsChar (c : Char) : Bool := c == ' ' || c == '\t' || c == '\n' || c == '\r'

/-- Model of Python `str.strip()`. -/
def trimStr (s : String) : String :=
  String.mk (((s.data.dropWhile wsChar).reverse.dropWhile wsChar).reverse)

/-- `headEq pat l`: `l` starts with `pat`. -/
def headEq : List Char → List Char → Bool
  | [], _ => true
  | _ :: _, [] => false
  | a :: as, b :: bs => a == b && headEq as bs

/-- `subSeq pat l`: `pat` occurs contiguously inside `l`. -/
def subSeq (pat : List Char) : List Char → Bool
  | [] => headEq pat []
  | l@(_ :: rest) => headEq pat l || subSeq pat rest

/-- Model of Python `pat in s` (substring containment). -/
def strHasSub (s pat : String) : Bool := subSeq pat.data s.data

/-- First-occurrence deduplication, the order `pandas.drop_duplicates`
(default `keep="first"`) and dict iteration produce. -/
def firstDedup {α : Type} [DecidableEq α] : List α → List α
  | [] => []
  | a :: as => a :: ((firstDedup as).filter (fun b => b ≠ a))

/-! ## Data model: one structure per CSV row type -/

/-- A row of `picks.csv` (`load_picks` schema in `app.py`). -/
structure Pick where
  group_name : String
  username : String
  name : String
  game_id : String
  selected_team : String
  point_value : Int
deriving DecidableEq, Repr

/-- A row of `games.csv` (the `load_games` schema in `app.py`, restricted to
the columns the verified routes read).  `home_score`/`away_score` model the
`int(...)`-guarded cells: `none` when `int()` would raise. -/
structure Game where
  game_id : String
  point_value : Int
  winner : String
  completed : Bool
  home_team : String
  away_team : String
  bowl_name : String
  home_score : Option Int
  away_score : Option Int
deriving DecidableEq, Repr

/-- A row of `users.csv` (`load_users` schema, restricted to the columns the
verified routes read). -/
structure UserRow where
  group_name : String
  username : String
  name : String
  token : String
  has_submitted : Bool
  tiebreaker : Option Int
deriving DecidableEq, Repr

/-- A row of `tiebreakers.csv` (`load_tiebreakers` schema). -/
structure TBRow where
  group_name : String
  username : String
  name : String
  tiebreaker : Int
deriving DecidableEq, Repr

/-- A row of `group_info.csv` as read by `get_group_pot`.  `buy_in` is a
Python float in the source; it is modelled as an integer, which is irrelevant
to the claims (they concern only the file-missing behaviour of this route). -/
structure GroupInfoRow where
  group_name : String
  buy_in : Int
deriving DecidableEq, Repr

/-- The CSV files on the persistent disk.  `none` models a file that does not
exist (`os.path.exists` false / `open`&`pd.read_csv` raising). -/
structure FS where
  picksFile : Option (List Pick)
  gamesFile : Option (List Game)
  usersFile : Option (List UserRow)
  tbFile : Option (List TBRow)
  groupInfoFile : Option (List GroupInfoRow)
deriving DecidableEq, Repr

/-! ## File loaders (`app.py` lines 40-253) -/

/-- `load_picks`: missing file gives the empty default frame. -/
def load_picks (fs : FS) : List Pick := fs.picksFile.getD []

/-- `load_games`: missing file gives the empty default frame. -/
def load_games (fs : FS) : List Game := fs.gamesFile.getD []

/-- `load_tiebreakers`: missing file gives the empty default frame. -/
def load_tiebreakers (fs : FS) : List TBRow := fs.tbFile.getD []

/-- `load_users`: when `users.csv` is missing the code first writes an empty
file with the header row and then reads it, so the call returns an empty
frame and leaves an empty file behind. -/
def load_users (fs : FS) : List UserRow × FS :=
  match fs.usersFile with
  | none => ([], { fs with usersFile := some [] })
  | some l => (l, fs)

/-! ## Scoring (`api_leaderboard` / `api_leaderboard_top5` / `api_winner`) -/

/-- The picks of one group: `picks_df[picks_df["group_name"] == group_name]`
(exact string equality, as in the source). -/
def groupPicks (picks : List Pick) (grp : String) : List Pick :=
  picks.filter (fun p => p.group_name == grp)

/-- The score contribution of one pick row after the left merge with
`games_df[["game_id", "winner", "completed"]]` on `game_id`:
one merged row per matching game row (none matching gives a row with
`completed` filled as `False`, hence score 0), and per merged row
`score = correct * point_value` where `point_value` is the PICK row's column
and `correct = completed & (selected_team == winner)`. -/
def pickScore (games : List Game) (p : Pick) : Int :=
  ((games.filter (fun g => g.game_id == p.game_id)).map
    (fun g => if g.completed && (p.selected_team == g.winner) then p.point_value else 0)).sum

/-- `merged.groupby("username")["score"].sum()` for one username. -/
def userTotal (picks : List Pick) (games : List Game) (grp u : String) : Int :=
  (((groupPicks picks grp).filter (fun p => p.username == u)).map (pickScore games)).sum

/-- The `totals` frame of the leaderboard routes: one `(username, total)` row
per username occurring in the group's picks.  (pandas `groupby` returns the
keys in sorted order; we keep first-occurrence order, which only affects the
order among rank ties and no claim concerns that order.) -/
def leaderboardTotals (picks : List Pick) (games : List Game) (grp : String) :
    List (String × Int) :=
  (firstDedup ((groupPicks picks grp).map Pick.username)).map
    (fun u => (u, userTotal picks games grp u))

/-- `name_map` lookup: the first `name` recorded for a username in the group's
picks (the source's `drop_duplicates` merge; a username has a single name in
every state `confirm_picks` writes). -/
def nameOf (picks : List Pick) (grp u : String) : String :=
  (((groupPicks picks grp).find? (fun p => p.username == u)).map Pick.name).getD ""

/-- One row of the JSON leaderboard. -/
structure LBEntry where
  username : String
  name : String
  total_points : Int
  rank : Nat
deriving DecidableEq, Repr

/-- `rank(method="min", ascending=False)` of the value `t` within the totals
column: 1 + the number of rows with a strictly larger total. -/
def rankIn (ts : List (String × Int)) (t : Int) : Nat :=
  1 + (ts.filter (fun v => t < v.2)).length

/-- `totals.sort_values("total_points", ascending=False)`. -/
def sortByTotal (ts : List (String × Int)) : List (String × Int) :=
  ts.insertionSort (fun a b => b.2 ≤ a.2)

/-- The `/api/<group>/leaderboard` response body: `[]` when `picks.csv` is
missing, else the ranked totals. -/
def api_leaderboard (fs : FS) (grp : String) : List LBEntry :=
  match fs.picksFile with
  | none => []
  | some file =>
    let games := load_games fs
    let sorted := sortByTotal (leaderboardTotals file games grp)
    sorted.map (fun a => ⟨a.1, nameOf file grp a.1, a.2, rankIn sorted a.2⟩)

/-- The `/api/<group>/leaderboard_top5` response body: the five best totals,
no rank column. -/
def api_leaderboard_top5 (fs : FS) (grp : String) : List (String × Int) :=
  match fs.picksFile with
  | none => []
  | some file => (sortByTotal (leaderboardTotals file (load_games fs) grp)).take 5

/-- A leaderboard request leaves every file as it found it: the route performs
reads only.  The pair is (response body, file system after the request). -/
def api_leaderboard_route (fs : FS) (grp : String) : List LBEntry × FS :=
  (api_leaderboard fs grp, fs)

/-! ## Pick submission (`api_confirm_picks`, lines 460-563) and retrieval -/

/-- The deduplication key of `picks_df.drop_duplicates(subset=["group_name",
"username", "game_id"])` (exact column values). -/
def pickKey (p : Pick) : String × String × String :=
  (p.group_name, p.username, p.game_id)

/-- Case-insensitive (group, username) match, as used to drop a user's
previous rows in `confirm_picks` and to count rows in `has-submitted`. -/
def ciMatch (grp u : String) (p : Pick) : Bool :=
  lowerStr p.group_name == lowerStr grp && lowerStr p.username == lowerStr u

/-- `drop_duplicates(subset=..., keep="last")`: keep a row exactly when no
later row has the same key, preserving the order of the kept rows. -/
def dropDupKeepLast : List Pick → List Pick
  | [] => []
  | p :: rest =>
    if rest.any (fun q => pickKey q == pickKey p) then dropDupKeepLast rest
    else p :: dropDupKeepLast rest

/-- Step 3a of `confirm_picks`: remove the user's previous rows
(case-insensitive on group and username). -/
def removeUserRows (file : List Pick) (grp u : String) : List Pick :=
  file.filter (fun p => !ciMatch grp u p)

/-- Step 3b of `confirm_picks`: build the new rows from the submitted dict,
skipping game_ids absent from the games table; `point_value` is copied from
the first matching games row; `name or username` supplies the name. -/
def newPickRows (games : List Game) (grp u nm : String)
    (ps : List (String × String)) : List Pick :=
  ps.filterMap (fun pr =>
    match games.find? (fun g => g.game_id == pr.1) with
    | none => none
    | some g => some ⟨grp, u, (if nm = "" then u else nm), pr.1, pr.2, g.point_value⟩)

/-- The whole-file rewrite of `picks.csv` a successful `confirm_picks`
performs: drop the user's old rows, append the new rows, deduplicate
keeping the last row per key. -/
def confirmPicksFile (file : List Pick) (games : List Game)
    (grp u nm : String) (ps : List (String × String)) : List Pick :=
  dropDupKeepLast (removeUserRows file grp u ++ newPickRows games grp u nm ps)

/-- `save_tiebreaker`: drop the user's old row (exact match) and append. -/
def saveTiebreaker (rows : List TBRow) (grp u nm : String) (v : Int) : List TBRow :=
  (rows.filter (fun r => !(r.group_name == grp && r.username == u))) ++ [⟨grp, u, nm, v⟩]

/-- The `/api/<group>/confirm_picks` handler.  `none` models a 400 response
(missing username/picks, or unknown user); on success the result is the
permalink token together with the file system after the three sequential
writes (users.csv, then optionally tiebreakers.csv, then picks.csv); the
writes touch pairwise distinct files, so the post-state is given as one
record whose fields are each computed from the pre-state.  `grp` is the canonical
group name `require_group` resolved; `ps` is the submitted dict as an
association list. -/
def api_confirm_picks (fs : FS) (grp u nm : String) (tb : Option Int)
    (ps : List (String × String)) : Option (String × FS) :=
  if u = "" ∨ ps = [] then none
  else
    match ((load_users fs).1).find? (fun r =>
        lowerStr r.group_name == lowerStr grp && lowerStr r.username == lowerStr u) with
    | none => none
    | some row =>
      some (row.token,
        { usersFile := some (((load_users fs).1).map (fun r =>
            if lowerStr r.group_name == lowerStr grp && lowerStr r.username == lowerStr u then
              { r with has_submitted := true,
                       tiebreaker := match tb with | none => r.tiebreaker | some v => some v }
            else r)),
          tbFile := match tb with
            | none => fs.tbFile
            | some v => some (saveTiebreaker (load_tiebreakers fs) grp u nm v),
          picksFile := some (confirmPicksFile (load_picks fs) (load_games fs) grp u nm ps),
          gamesFile := fs.gamesFile,
          groupInfoFile := fs.groupInfoFile })

/-- The filter of `api_get_user_picks` (exact group and username equality). -/
def getUserPicks (file : List Pick) (grp u : String) : List Pick :=
  file.filter (fun p => p.group_name == grp && p.username == u)

/-- The `/api/<group>/get_user_picks` handler; `none` models the 400 response
for a missing username. -/
def api_get_user_picks (fs : FS) (grp u : String) : Option (List Pick) :=
  if u = "" then none else some (getUserPicks (load_picks fs) grp u)

/-! ## Submission-status routes -/

/-- `user_has_submitted`: any pick row with exactly this group and username. -/
def user_has_submitted (fs : FS) (u grp : String) : Bool :=
  (load_picks fs).any (fun p => p.group_name == grp && p.username == u)

/-- The `submitted` field of the `/api/<group>/user_status` response. -/
def api_user_status (fs : FS) (grp u : String) : Bool :=
  if u = "" then false else user_has_submitted fs u grp

/-- The `submitted` field of the `/api/<group>/<user>/has-submitted` response:
true exactly when the user's case-insensitively matched pick-row count equals
the number of rows of the games table. -/
def api_has_submitted (fs : FS) (grp u : String) : Bool :=
  if u = "" then false
  else ((load_picks fs).filter (ciMatch grp u)).length == (load_games fs).length

/-! ## Winner endpoint (`api_winner`, lines 925-1006) -/

/-- The championship-game test: `bowl_name` contains "National Championship"
case-insensitively. -/
def isChampGame (g : Game) : Bool :=
  strHasSub (lowerStr g.bowl_name) "national championship"

/-- The tiebreaker row `totals.merge(tb_df[...], on="username", how="left")`
attaches to a username (at most one row per (group, username) exists in every
state `save_tiebreaker` writes, so the left merge is a first-match lookup). -/
def tbLookup (tbs : List TBRow) (grp u : String) : Option Int :=
  ((tbs.filter (fun r => r.group_name == grp)).find? (fun r => r.username == u)).map
    TBRow.tiebreaker

/-- One row of the winner route's `totals` frame, keyed by the
`groupby(["username", "name"])` pair, with the filled tiebreaker and its
absolute error against the championship's combined score. -/
structure WRow where
  username : String
  name : String
  total : Int
  tb : Int
  err : Nat
deriving DecidableEq, Repr

/-- The winner route's `totals` frame for combined championship score `ct`:
totals per (username, name) key, tiebreaker filled with 9999 when missing,
`tb_error = abs(tiebreaker - ct)`. -/
def winnerRows (picks : List Pick) (games : List Game) (tbs : List TBRow)
    (grp : String) (ct : Int) : List WRow :=
  (firstDedup ((groupPicks picks grp).map (fun p => (p.username, p.name)))).map
    (fun k =>
      let total := (((groupPicks picks grp).filter
        (fun p => p.username == k.1 && p.name == k.2)).map (pickScore games)).sum
      let tb := (tbLookup tbs grp k.1).getD 9999
      ⟨k.1, k.2, total, tb, (tb - ct).natAbs⟩)

/-- `sort_values(["total_points", "tb_error"], ascending=[False, True])` as a
relation: strictly more points first, ties broken by smaller error. -/
def wLE (a b : WRow) : Prop :=
  b.total < a.total ∨ (a.total = b.total ∧ a.err ≤ b.err)

instance : DecidableRel wLE := fun a b => by unfold wLE; exact inferInstance

instance : IsTotal WRow wLE where
  total a b := by
    unfold wLE
    rcases lt_trichotomy a.total b.total with h | h | h
    · exact Or.inr (Or.inl h)
    · omega
    · exact Or.inl (Or.inl h)

instance : IsTrans WRow wLE where
  trans a b c hab hbc := by
    unfold wLE at hab hbc ⊢
    omega

/-- The winner's JSON payload. -/
structure WinnerOut where
  username : String
  name : String
  total_points : Int
  tiebreaker : Int
deriving DecidableEq, Repr

/-- The `/api/<group>/winner` handler.  `champComplete` abstracts the
wall-clock test `championship_complete()`; `none` models the
`{"winner": None}` responses. -/
def api_winner (champComplete : Bool) (fs : FS) (grp : String) : Option WinnerOut :=
  if champComplete = false then none
  else
    let picks := load_picks fs
    if (groupPicks picks grp).isEmpty then none
    else
      let games := load_games fs
      match games.find? isChampGame with
      | none => none
      | some champ =>
        match champ.home_score, champ.away_score with
        | some hs, some aws =>
          let rows := winnerRows picks games (load_tiebreakers fs) grp (hs + aws)
          ((rows.insertionSort wLE).head?).map
            (fun w => ⟨w.username, w.name, w.total, w.tb⟩)
        | _, _ => none

/-! ## Routes that read CSV files directly (no missing-file default) -/

/-- The `/api/<group>/picks_board` handler up to its picks read:
`pd.read_csv(picks_path)` is called unconditionally, so a missing `picks.csv`
raises `FileNotFoundError` (a 500 response).  The success payload is
abbreviated to the group's pick rows (the board assembly that follows is not
needed by any claim). -/
def api_picks_board (fs : FS) (grp : String) : Except String (List Pick) :=
  match fs.picksFile with
  | none => Except.error "FileNotFoundError"
  | some file =>
    Except.ok (file.filter (fun p => trimStr p.group_name == trimStr grp))

/-- The `/group_pot/<group>` handler: both `group_info.csv` and `picks.csv`
are opened directly, so either file missing raises (a 500 response); otherwise
the pot is (number of distinct usernames in the group's picks) * buy_in. -/
def get_group_pot (fs : FS) (grp : String) : Except String (Int × Nat) :=
  match fs.groupInfoFile with
  | none => Except.error "FileNotFoundError"
  | some info =>
    let buyIn := ((info.find? (fun r =>
      lowerStr (trimStr r.group_name) == lowerStr (trimStr grp))).map
        GroupInfoRow.buy_in).getD 0
    match fs.picksFile with
    | none => Except.error "FileNotFoundError"
    | some file =>
      let users := firstDedup ((file.filter (fun p =>
        lowerStr (trimStr p.group_name) == lowerStr (trimStr grp))).map Pick.username)
      Except.ok (users.length * buyIn, users.length)

/-! ## Live winners updater (`update_winners_live.py`) -/

/-- One game object of the external API's JSON response (fields read by the
updater). -/
structure ExtGame where
  homeTeam : String
  awayTeam : String
  completed : Bool
  homePoints : Option Int
  awayPoints : Option Int
deriving DecidableEq, Repr

/-- A row of the updater's CSV (`data/test_games.csv`); `winner` is `""` when
the cell is empty. -/
structure GameRow where
  home_team : String
  away_team : String
  winner : String
  completed : Bool
deriving DecidableEq, Repr

/-- What one attempt of `fetch_games_with_backoff` observes: a good JSON
payload, an HTTP 429, the rate-limit string payload, or a raised exception. -/
inductive FetchOutcome where
  | ok : List ExtGame → FetchOutcome
  | rateLimited : FetchOutcome
  | badPayload : FetchOutcome
  | exn : FetchOutcome
deriving DecidableEq, Repr

/-- Whether an attempt succeeded. -/
def FetchOutcome.isOk : FetchOutcome → Bool
  | .ok _ => true
  | _ => false

/-- `max_retries` of `fetch_games_with_backoff`. -/
def MAX_RETRIES : Nat := 2

/-- The sleep before retry `i`: `delay` starts at 3 seconds and doubles after
every failed attempt, capped at 60 (`delay = min(delay * 2, 60)`). -/
def delaySeq : Nat → Nat
  | 0 => 3
  | n + 1 => min (delaySeq n * 2) 60

/-- The retry loop of `fetch_games_with_backoff`: try `outcomes attempt`,
return its payload on success, otherwise retry while attempts remain
(`remaining` counts the attempts still allowed, `max_retries + 1` at start). -/
def fetchGo (outcomes : Nat → FetchOutcome) (attempt : Nat) :
    Nat → Option (List ExtGame)
  | 0 => none
  | r + 1 =>
    match outcomes attempt with
    | .ok gs => some gs
    | _ => fetchGo outcomes (attempt + 1) r

/-- `fetch_games_with_backoff()`: at most `1 + MAX_RETRIES` attempts, `none`
when all fail. -/
def fetchGamesWithBackoff (outcomes : Nat → FetchOutcome) : Option (List ExtGame) :=
  fetchGo outcomes 0 (MAX_RETRIES + 1)

/-- The `MANUAL_WINNERS` dict. -/
def MANUAL_WINNERS : List ((String × String) × String) :=
  [(("Northwestern", "Michigan"), "Michigan")]

/-- `apply_manual_winner(home, away)`: the pair, then the reversed pair. -/
def applyManualWinner (home away : String) : Option String :=
  match MANUAL_WINNERS.find? (fun e => e.1 == (home, away)) with
  | some e => some e.2
  | none =>
    match MANUAL_WINNERS.find? (fun e => e.1 == (away, home)) with
    | some e => some e.2
    | none => none

/-- The updater's matching test between a CSV row and an API game (both team
names stripped, either orientation). -/
def matchesRow (row : GameRow) (g : ExtGame) : Bool :=
  let gh := trimStr g.homeTeam
  let ga := trimStr g.awayTeam
  let h := trimStr row.home_team
  let a := trimStr row.away_team
  (gh == h && ga == a) || (gh == a && ga == h)

/-- One iteration of the updater's per-row loop: manual override first; else
the first matching completed API game with both scores determines the winner
(home team exactly when home points exceed away points, away team otherwise),
and the row is rewritten only when the stored winner differs. -/
def updateRow (ext : List ExtGame) (row : GameRow) : GameRow :=
  match applyManualWinner (trimStr row.home_team) (trimStr row.away_team) with
  | some w => { row with winner := w, completed := true }
  | none =>
    match ext.find? (matchesRow row) with
    | none => row
    | some m =>
      if m.completed = false then row
      else
        match m.homePoints, m.awayPoints with
        | some hp, some ap =>
          let w := if ap < hp then m.homeTeam else m.awayTeam
          if row.winner ≠ w then { row with winner := w, completed := true } else row
        | _, _ => row

/-- One cycle of the updater's main loop: when the fetch fails the cycle is
skipped (`continue`) and the CSV is not rewritten; otherwise every row is
updated and the file rewritten. -/
def runCycle (rows : List GameRow) (outcomes : Nat → FetchOutcome) : List GameRow :=
  match fetchGamesWithBackoff outcomes with
  | none => rows
  | some ext => rows.map (updateRow ext)

/-! ## Concrete sample data used to instantiate the theorems -/

/-- A game worth 3 points, completed, won by "Alpha". -/
def gSample : Game := ⟨"1", 3, "Alpha", true, "Alpha", "Beta", "Cotton Bowl", none, none⟩

/-- A pick of "Alpha" on game "1" whose stored `point_value` (7) differs from
the game's `point_value` (3). -/
def pMismatch : Pick := ⟨"G", "u", "U", "1", "Alpha", 7⟩

/-- A pick of "Alpha" on game "1" agreeing with the game's `point_value`. -/
def pAgree : Pick := ⟨"G", "alice", "Alice", "1", "Alpha", 3⟩

/-- A second game, worth 4 points, completed, won by "Gamma". -/
def gSample2 : Game := ⟨"2", 4, "Gamma", true, "Gamma", "Delta", "Rose Bowl", none, none⟩

/-- A losing pick by a second user. -/
def pLoser : Pick := ⟨"G", "bob", "Bob", "2", "Delta", 4⟩

/-- A file system holding one winning and one losing pick for group "G". -/
def fsTwoUsers : FS :=
  ⟨some [pAgree, pLoser], some [gSample, gSample2], some [], some [], some []⟩

/-- A registered user "bob" of group "G" with permalink token "tok1". -/
def uBob : UserRow := ⟨"G", "bob", "Bob", "tok1", false, none⟩

/-- A file system in which "bob" exists but has no picks yet. -/
def fsFresh : FS := ⟨some [], some [gSample, gSample2], some [uBob], some [], some []⟩

/-- The file system a successful `confirm_picks` by "bob" leaves behind. -/
def fsAfterConfirm : FS :=
  (api_confirm_picks fsFresh "G" "bob" "Bob" none [("1", "Alpha"), ("2", "Gamma")]).elim
    fsFresh Prod.snd

/-- A pick row belonging to a different (group, username) pair. -/
def pOther : Pick := ⟨"H", "carol", "Carol", "1", "Beta", 3⟩

/-- "bob" registered in group "G" (companion to `fsDupOther`). -/
def uBob2 : UserRow := ⟨"G", "bob", "Bob", "tok2", false, none⟩

/-- A picks file holding the same other-pair row twice (a duplicate a prior
state could contain). -/
def fsDupOther : FS := ⟨some [pOther, pOther], some [gSample], some [uBob2], some [], some []⟩

/-- The state a successful `confirm_picks` by "bob" leaves from `fsDupOther`. -/
def fsDupOtherRes : FS :=
  (api_confirm_picks fsDupOther "G" "bob" "Bob" none [("1", "Alpha")]).elim
    fsDupOther Prod.snd

/-- A file system with no `picks.csv` on disk. -/
def fsNoPicks : FS := ⟨none, some [gSample], some [], some [], some []⟩

/-- A file system with no files at all on disk. -/
def fsEmptyDisk : FS := ⟨none, none, none, none, none⟩

/-- The championship game, completed 21:20, worth 5 points. -/
def gChamp : Game :=
  ⟨"3", 5, "Alpha", true, "Alpha", "Beta", "National Championship", some 21, some 20⟩

/-- Alice picked "Alpha" in the championship. -/
def pChampAlice : Pick := ⟨"G", "alice", "Alice", "3", "Alpha", 5⟩

/-- Bob also picked "Alpha" in the championship. -/
def pChampBob : Pick := ⟨"G", "bob", "Bob", "3", "Alpha", 5⟩

/-- Alice guessed a combined score of 40 (error 1 against 41). -/
def tbAlice : TBRow := ⟨"G", "alice", "Alice", 40⟩

/-- Bob guessed a combined score of 30 (error 11 against 41). -/
def tbBob : TBRow := ⟨"G", "bob", "Bob", 30⟩

/-- A file system in which alice and bob are tied on points and the
tiebreaker must decide. -/
def fsTied : FS :=
  ⟨some [pChampAlice, pChampBob], some [gChamp], some [], some [tbAlice, tbBob], some []⟩

/-- An external-API game: AState 10, BState 20, final. -/
def extDone : ExtGame := ⟨"AState", "BState", true, some 10, some 20⟩

/-- A CSV row already holding the winner "BState" but not marked completed. -/
def rowPrefilled : GameRow := ⟨"AState", "BState", "BState", false⟩

/-- A CSV row with no winner recorded yet. -/
def rowBlank : GameRow := ⟨"AState", "BState", "", false⟩

/-- An attempt oracle on which every fetch attempt raises. -/
def outcomesAllFail : Nat → FetchOutcome := fun _ => FetchOutcome.exn

/-- A file system with one other-pair pick row and "bob" registered. -/
def fsOtherSingle : FS := ⟨some [pOther], some [gSample], some [uBob2], some [], some []⟩

/-- The state a successful `confirm_picks` by "bob" leaves from
`fsOtherSingle`. -/
def fsOtherSingleRes : FS :=
  (api_confirm_picks fsOtherSingle "G" "bob" "Bob" none [("1", "Alpha")]).elim
    fsOtherSingle Prod.snd

/-- The winner payload of `fsTied`: alice wins on the closer tiebreaker. -/
def woAlice : WinnerOut := ⟨"alice", "Alice", 5, 40⟩

/-- Bob's row in the winner computation over `fsTied`. -/
def wrBob : WRow := ⟨"bob", "Bob", 5, 30, 11⟩

/-- The leaderboard entry of alice in `fsTwoUsers`. -/
def eAlice : LBEntry := ⟨"alice", "Alice", 3, 1⟩

/-- The leaderboard entry of bob in `fsTwoUsers`. -/
def eBob : LBEntry := ⟨"bob", "Bob", 0, 2⟩

/-! ## Helper lemmas -/

lemma length_filter_le_of {α : Type} {p q : α → Bool} (himp : ∀ a, p a = true → q a = true)
    (l : List α) : (l.filter p).length ≤ (l.filter q).length := by
  induction l with
  | nil => simp
  | cons a l ih =>
    cases hpa : p a with
    | true =>
      have hqa := himp a hpa
      simp only [List.filter_cons, hpa, hqa, if_true, List.length_cons]
      omega
    | false =>
      cases hqa : q a with
      | true =>
        simp only [List.filter_cons, hpa, hqa, if_true, List.length_cons, Bool.false_eq_true,
          if_false]
        omega
      | false =>
        simp only [List.filter_cons, hpa, hqa, Bool.false_eq_true, if_false]
        omega

lemma length_filter_lt_of {α : Type} {p q : α → Bool} (himp : ∀ a, p a = true → q a = true)
    {x : α} (hqx : q x = true) (hpx : p x = false) :
    ∀ l : List α, x ∈ l → (l.filter p).length < (l.filter q).length := by
  intro l
  induction l with
  | nil => intro h; cases h
  | cons a l ih =>
    intro hx
    rcases List.mem_cons.mp hx with rfl | hx'
    · have hle := length_filter_le_of himp l
      simp only [List.filter_cons, hpx, hqx, if_true, List.length_cons, Bool.false_eq_true,
        if_false]
      omega
    · have hlt := ih hx'
      cases hpa : p a with
      | true =>
        have hqa := himp a hpa
        simp only [List.filter_cons, hpa, hqa, if_true, List.length_cons]
        omega
      | false =>
        cases hqa : q a with
        | true =>
          simp only [List.filter_cons, hpa, hqa, if_true, List.length_cons, Bool.false_eq_true,
            if_false]
          omega
        | false =>
          simp only [List.filter_cons, hpa, hqa, Bool.false_eq_true, if_false]
          omega

lemma filter_id_eq_singleton {g : Game} :
    ∀ games : List Game, (games.map Game.game_id).Nodup → g ∈ games →
      games.filter (fun g2 => g2.game_id == g.game_id) = [g] := by
  intro games
  induction games with
  | nil => intro _ hg; cases hg
  | cons a l ih =>
    intro hnd hg
    rw [List.map_cons, List.nodup_cons] at hnd
    rcases List.mem_cons.mp hg with rfl | hg'
    · have hnil : l.filter (fun g2 => g2.game_id == g.game_id) = [] := by
        rw [List.filter_eq_nil_iff]
        intro b hb
        simp only [beq_iff_eq]
        intro hEq
        exact hnd.1 (List.mem_map.mpr ⟨b, hb, hEq⟩)
      simp [List.filter_cons, hnil]
    · have hne : (a.game_id == g.game_id) = false := by
        simp only [beq_eq_false_iff_ne, ne_eq]
        intro hEq
        exact hnd.1 (List.mem_map.mpr ⟨g, hg', hEq.symm⟩)
      simp only [List.filter_cons, hne, Bool.false_eq_true, if_false]
      exact ih hnd.2 hg'

lemma ddl_sublist : ∀ l : List Pick, (dropDupKeepLast l).Sublist l := by
  intro l
  induction l with
  | nil => simp [dropDupKeepLast]
  | cons p rest ih =>
    by_cases h : rest.any (fun q => pickKey q == pickKey p) = true
    · simp only [dropDupKeepLast]
      rw [if_pos h]
      exact ih.trans (List.sublist_cons_self p rest)
    · simp only [dropDupKeepLast]
      rw [if_neg h]
      exact ih.cons₂ p

lemma ddl_keys_nodup : ∀ l : List Pick, ((dropDupKeepLast l).map pickKey).Nodup := by
  intro l
  induction l with
  | nil => simp [dropDupKeepLast]
  | cons p rest ih =>
    by_cases h : rest.any (fun q => pickKey q == pickKey p) = true
    · simp only [dropDupKeepLast]
      rw [if_pos h]
      exact ih
    · simp only [dropDupKeepLast]
      rw [if_neg h]
      rw [List.map_cons, List.nodup_cons]
      refine ⟨fun hmem => ?_, ih⟩
      obtain ⟨q, hq, hkey⟩ := List.mem_map.mp hmem
      have hq' : q ∈ rest := (ddl_sublist rest).subset hq
      exact h (List.any_eq_true.mpr ⟨q, hq', by simp [hkey]⟩)

lemma ddl_eq_self : ∀ l : List Pick, (l.map pickKey).Nodup → dropDupKeepLast l = l := by
  intro l
  induction l with
  | nil => intro _; rfl
  | cons p rest ih =>
    intro hnd
    rw [List.map_cons, List.nodup_cons] at hnd
    have h : ¬ rest.any (fun q => pickKey q == pickKey p) = true := by
      rw [List.any_eq_true]
      rintro ⟨q, hq, hkey⟩
      rw [beq_iff_eq] at hkey
      exact hnd.1 (List.mem_map.mpr ⟨q, hq, hkey⟩)
    simp only [dropDupKeepLast]
    rw [if_neg h, ih hnd.2]

lemma ddl_filter_comm (m : Pick → Bool) (hm : ∀ p q : Pick, pickKey p = pickKey q → m p = m q) :
    ∀ l : List Pick, (dropDupKeepLast l).filter m = dropDupKeepLast (l.filter m) := by
  intro l
  induction l with
  | nil => rfl
  | cons p rest ih =>
    by_cases hdup : rest.any (fun q => pickKey q == pickKey p) = true
    · rw [show dropDupKeepLast (p :: rest) = dropDupKeepLast rest by
        simp only [dropDupKeepLast]; rw [if_pos hdup]]
      rw [ih]
      cases hmp : m p with
      | false => simp [List.filter_cons, hmp]
      | true =>
        obtain ⟨q, hq, hkey⟩ := List.any_eq_true.mp hdup
        have hkey' : pickKey q = pickKey p := by simpa using hkey
        have hmq : m q = true := by rw [hm q p hkey']; exact hmp
        have hany : (rest.filter m).any (fun q2 => pickKey q2 == pickKey p) = true :=
          List.any_eq_true.mpr ⟨q, List.mem_filter.mpr ⟨hq, hmq⟩, by simp [hkey']⟩
        rw [List.filter_cons]
        rw [if_pos hmp]
        rw [show dropDupKeepLast (p :: rest.filter m) = dropDupKeepLast (rest.filter m) by
          simp only [dropDupKeepLast]; rw [if_pos hany]]
    · have hkeep : dropDupKeepLast (p :: rest) = p :: dropDupKeepLast rest := by
        simp only [dropDupKeepLast]; rw [if_neg hdup]
      rw [hkeep]
      cases hmp : m p with
      | true =>
        have hany : ¬ (rest.filter m).any (fun q2 => pickKey q2 == pickKey p) = true := by
          rw [List.any_eq_true]
          rintro ⟨q, hq, hkey⟩
          exact hdup (List.any_eq_true.mpr ⟨q, (List.mem_filter.mp hq).1, hkey⟩)
        rw [List.filter_cons, if_pos hmp]
        rw [List.filter_cons, if_pos hmp]
        rw [show dropDupKeepLast (p :: rest.filter m) = p :: dropDupKeepLast (rest.filter m) by
          simp only [dropDupKeepLast]; rw [if_neg hany]]
        rw [ih]
      | false =>
        rw [List.filter_cons]
        rw [if_neg (by simp [hmp])]
        rw [List.filter_cons, if_neg (by simp [hmp]), ih]

lemma mem_newPickRows {games : List Game} {grp u nm : String} {ps : List (String × String)}
    {p : Pick} (h : p ∈ newPickRows games grp u nm ps) :
    p.group_name = grp ∧ p.username = u := by
  obtain ⟨pr, _, hf⟩ := List.mem_filterMap.mp h
  cases hfind : games.find? (fun g => g.game_id == pr.1) with
  | none => rw [hfind] at hf; cases hf
  | some g =>
    rw [hfind] at hf
    simp only [Option.some.injEq] at hf
    rw [← hf]
    exact ⟨rfl, rfl⟩

lemma newPickRows_pairs {games : List Game} {grp u nm : String} :
    ∀ ps : List (String × String), (∀ pr ∈ ps, ∃ g ∈ games, g.game_id = pr.1) →
      (newPickRows games grp u nm ps).map (fun p => (p.game_id, p.selected_team)) = ps := by
  intro ps
  induction ps with
  | nil => intro _; rfl
  | cons pr rest ih =>
    intro hall
    obtain ⟨g, hg, hid⟩ := hall pr (List.mem_cons_self pr rest)
    have hsome : (games.find? (fun g2 => g2.game_id == pr.1)).isSome = true := by
      apply List.find?_isSome.mpr
      exact ⟨g, hg, by simp [hid]⟩
    obtain ⟨g0, hg0⟩ := Option.isSome_iff_exists.mp hsome
    have hstep : newPickRows games grp u nm (pr :: rest)
        = ⟨grp, u, (if nm = "" then u else nm), pr.1, pr.2, g0.point_value⟩
          :: newPickRows games grp u nm rest := by
      simp only [newPickRows, List.filterMap_cons]
      rw [hg0]
    rw [hstep, List.map_cons]
    simp [Prod.mk.eta, ih (fun q hq => hall q (List.mem_cons_of_mem pr hq))]

lemma newPickRows_keys {games : List Game} {grp u nm : String} :
    ∀ ps : List (String × String), (∀ pr ∈ ps, ∃ g ∈ games, g.game_id = pr.1) →
      (newPickRows games grp u nm ps).map pickKey = ps.map (fun pr => (grp, u, pr.1)) := by
  intro ps
  induction ps with
  | nil => intro _; rfl
  | cons pr rest ih =>
    intro hall
    obtain ⟨g, hg, hid⟩ := hall pr (List.mem_cons_self pr rest)
    have hsome : (games.find? (fun g2 => g2.game_id == pr.1)).isSome = true := by
      apply List.find?_isSome.mpr
      exact ⟨g, hg, by simp [hid]⟩
    obtain ⟨g0, hg0⟩ := Option.isSome_iff_exists.mp hsome
    have hstep : newPickRows games grp u nm (pr :: rest)
        = ⟨grp, u, (if nm = "" then u else nm), pr.1, pr.2, g0.point_value⟩
          :: newPickRows games grp u nm rest := by
      simp only [newPickRows, List.filterMap_cons]
      rw [hg0]
    rw [hstep, List.map_cons]
    simp [pickKey, ih (fun q hq => hall q (List.mem_cons_of_mem pr hq))]

lemma confirm_ok_spec {fs : FS} {grp u nm : String} {tb : Option Int}
    {ps : List (String × String)} {tok : String} {fs2 : FS}
    (hok : api_confirm_picks fs grp u nm tb ps = some (tok, fs2)) :
    fs2.picksFile = some (confirmPicksFile (load_picks fs) (load_games fs) grp u nm ps) ∧
    fs2.gamesFile = fs.gamesFile := by
  unfold api_confirm_picks at hok
  by_cases hg : u = "" ∨ ps = []
  · rw [if_pos hg] at hok; cases hok
  · rw [if_neg hg] at hok
    cases hfind : ((load_users fs).1).find? (fun r =>
        lowerStr r.group_name == lowerStr grp && lowerStr r.username == lowerStr u) with
    | none => rw [hfind] at hok; cases hok
    | some row =>
      rw [hfind] at hok
      simp only [Option.some.injEq, Prod.mk.injEq] at hok
      rw [← hok.2]
      exact ⟨rfl, rfl⟩

lemma wLE_refl (a : WRow) : wLE a a := Or.inr ⟨rfl, le_refl _⟩

lemma head_wLE {rows : List WRow} {w : WRow}
    (h : (rows.insertionSort wLE).head? = some w) : ∀ v ∈ rows, wLE w v := by
  intro v hv
  have hv' : v ∈ rows.insertionSort wLE :=
    (List.perm_insertionSort wLE rows).mem_iff.mpr hv
  have hs : List.Sorted wLE (rows.insertionSort wLE) := List.sorted_insertionSort wLE rows
  cases hsort : rows.insertionSort wLE with
  | nil => rw [hsort] at h; cases h
  | cons a t =>
    rw [hsort] at h hv' hs
    simp only [List.head?_cons, Option.some.injEq] at h
    subst h
    rcases List.mem_cons.mp hv' with rfl | hvt
    · exact wLE_refl v
    · exact (List.sorted_cons.mp hs).1 v hvt

lemma fetchGo_eq_none (outcomes : Nat → FetchOutcome) :
    ∀ (r attempt : Nat), (∀ i, attempt ≤ i → i < attempt + r → (outcomes i).isOk = false) →
      fetchGo outcomes attempt r = none := by
  intro r
  induction r with
  | zero => intro attempt _; rfl
  | succ r ih =>
    intro attempt h
    have h0 : (outcomes attempt).isOk = false := h attempt le_rfl (by omega)
    simp only [fetchGo]
    cases ho : outcomes attempt with
    | ok gs => rw [ho] at h0; simp [FetchOutcome.isOk] at h0
    | rateLimited => exact ih (attempt + 1) (fun i h1 h2 => h i (by omega) (by omega))
    | badPayload => exact ih (attempt + 1) (fun i h1 h2 => h i (by omega) (by omega))
    | exn => exact ih (attempt + 1) (fun i h1 h2 => h i (by omega) (by omega))

lemma delaySeq_le (i : Nat) : delaySeq i ≤ 60 := by
  cases i with
  | zero => simp [delaySeq]
  | succ n => exact Nat.min_le_right _ _

/-! ## The claims -/

/-- C8: the leaderboard endpoint is an idempotent recomputation over the flat
files: it writes no file (the post-request file system is the pre-request
one), and repeating the request returns the same response and changes no
observable state. -/
theorem C8_leaderboard_idempotent (fs : FS) (grp : String) :
    (api_leaderboard_route fs grp).2 = fs ∧
    (api_leaderboard_route ((api_leaderboard_route fs grp).2) grp).1
      = (api_leaderboard_route fs grp).1 :=
  ⟨rfl, rfl⟩

/-- C7: when every attempt of the bounded retry sequence fails (delays capped
at 60 seconds, at most `MAX_RETRIES` additional attempts), the fetch returns
`none`, the update cycle is skipped, and no row of the games CSV is changed. -/
theorem C7_fetch_failure_skips_cycle (outcomes : Nat → FetchOutcome)
    (rows : List GameRow)
    (h : ∀ i, i ≤ MAX_RETRIES → (outcomes i).isOk = false) :
    fetchGamesWithBackoff outcomes = none ∧
    runCycle rows outcomes = rows ∧
    (∀ i, delaySeq i ≤ 60) := by
  have hf : fetchGamesWithBackoff outcomes = none := by
    apply fetchGo_eq_none
    intro i hge hlt
    apply h
    revert hlt
    simp only [MAX_RETRIES]
    omega
  refine ⟨hf, ?_, delaySeq_le⟩
  simp [runCycle, hf]

/-- Witness for C7 at a concrete oracle on which every attempt raises. -/
theorem C7_witness :
    fetchGamesWithBackoff outcomesAllFail = none ∧
    runCycle [rowBlank] outcomesAllFail = [rowBlank] ∧
    delaySeq 2 ≤ 60 := by
  have h := C7_fetch_failure_skips_cycle outcomesAllFail [rowBlank] (fun i _ => rfl)
  exact ⟨h.1, h.2.1, h.2.2 2⟩

/-- C10: `has-submitted` reports true exactly when the user's
(case-insensitively matched) pick-row count equals the games-table row count,
while `user_status` reports true as soon as one exactly-matching pick row
exists; hence on a non-empty proper subset of picks they disagree. -/
theorem C10_status_endpoints_disagree (fs : FS) (grp u : String) (hu : u ≠ "") :
    (api_has_submitted fs grp u = true ↔
      ((load_picks fs).filter (ciMatch grp u)).length = (load_games fs).length) ∧
    (api_user_status fs grp u = true ↔
      ∃ p ∈ load_picks fs, p.group_name = grp ∧ p.username = u) ∧
    (((load_picks fs).filter (ciMatch grp u)).length ≠ (load_games fs).length →
      (∃ p ∈ load_picks fs, p.group_name = grp ∧ p.username = u) →
      api_has_submitted fs grp u = false ∧ api_user_status fs grp u = true) := by
  refine ⟨?_, ?_, ?_⟩
  · simp [api_has_submitted, hu]
  · simp [api_user_status, hu, user_has_submitted, List.any_eq_true]
  · intro h1 h2
    constructor
    · simp [api_has_submitted, hu, h1]
    · simp only [api_user_status, hu, if_neg, user_has_submitted, List.any_eq_true]
      obtain ⟨p, hp, h3, h4⟩ := h2
      simp [user_has_submitted, List.any_eq_true]
      exact ⟨p, hp, by simp [h3, h4]⟩

/-- Witness for C10: bob picked one of the two games in `fsTwoUsers`. -/
theorem C10_witness :
    api_has_submitted fsTwoUsers "G" "bob" = false ∧
    api_user_status fsTwoUsers "G" "bob" = true := by
  exact (C10_status_endpoints_disagree fsTwoUsers "G" "bob" (by decide)).2.2
    (by decide) (by decide)

/-- C5 (amended): reads performed through the `load_*` helpers substitute an
empty default frame when the backing file is missing, and the routes built on
them return normal empty responses; the claim's universal form fails because
`api_picks_board` and `get_group_pot` read their CSVs directly (see the
counterexample). -/
theorem C5_missing_file_defaults (fs : FS) (grp u : String)
    (hp : fs.picksFile = none) :
    load_picks fs = [] ∧
    api_leaderboard fs grp = [] ∧
    api_leaderboard_top5 fs grp = [] ∧
    (u ≠ "" → api_get_user_picks fs grp u = some []) ∧
    api_user_status fs grp u = false ∧
    (∀ c, api_winner c fs grp = none) ∧
    (fs.gamesFile = none → load_games fs = []) ∧
    (fs.tbFile = none → load_tiebreakers fs = []) ∧
    (fs.usersFile = none → (load_users fs).1 = []) := by
  refine ⟨?_, ?_, ?_, ?_, ?_, ?_, ?_, ?_, ?_⟩
  · simp [load_picks, hp]
  · simp [api_leaderboard, hp]
  · simp [api_leaderboard_top5, hp]
  · intro hu
    simp [api_get_user_picks, hu, getUserPicks, load_picks, hp]
  · simp [api_user_status, user_has_submitted, load_picks, hp]
  · intro c
    cases c with
    | false => simp [api_winner]
    | true => simp [api_winner, load_picks, hp, groupPicks]
  · intro h; simp [load_games, h]
  · intro h; simp [load_tiebreakers, h]
  · intro h; simp [load_users, h]

/-- Witness for C5 (amended) on the file system with no files on disk. -/
theorem C5_missing_file_witness :
    load_picks fsEmptyDisk = [] ∧
    api_leaderboard fsEmptyDisk "G" = [] ∧
    api_user_status fsEmptyDisk "G" "bob" = false := by
  have h := C5_missing_file_defaults fsEmptyDisk "G" "bob" rfl
  exact ⟨h.1, h.2.1, h.2.2.2.2.1⟩

/-- Counterexample to C5 as stated: `api_picks_board` and `get_group_pot`
read picks.csv / group_info.csv directly, so with the file absent they raise
instead of returning a normal empty-data response. -/
theorem C5_counterexample :
    api_picks_board fsNoPicks "G" = Except.error "FileNotFoundError" ∧
    get_group_pot fsEmptyDisk "G" = Except.error "FileNotFoundError" :=
  ⟨rfl, rfl⟩

/-- C9 (amended): for a CSV row (with no manual override) matched to a
completed external game with both scores present, the computed winner is the
home team exactly when the home points strictly exceed the away points (the
away team on equal scores), and when the stored winner differs from the
computed one the row is rewritten with that winner and its completed flag set;
a row already storing the computed winner is left unchanged (see the
counterexample for the completed flag). -/
theorem C9_updater_winner_rule (ext : List ExtGame) (row : GameRow)
    (m : ExtGame) (hp ap : Int)
    (hman : applyManualWinner (trimStr row.home_team) (trimStr row.away_team) = none)
    (hfind : ext.find? (matchesRow row) = some m)
    (hcomp : m.completed = true)
    (hhp : m.homePoints = some hp) (hap : m.awayPoints = some ap)
    (hne : m.homeTeam ≠ m.awayTeam)
    (hdiff : row.winner ≠ (if ap < hp then m.homeTeam else m.awayTeam)) :
    (updateRow ext row).completed = true ∧
    ((updateRow ext row).winner = m.homeTeam ↔ ap < hp) ∧
    (hp = ap → (updateRow ext row).winner = m.awayTeam) := by
  have hstep : updateRow ext row =
      { row with winner := (if ap < hp then m.homeTeam else m.awayTeam),
                 completed := true } := by
    simp only [updateRow, hman, hfind, hcomp, hhp, hap]
    rw [if_pos hdiff]
    simp
  refine ⟨by rw [hstep], ?_, ?_⟩
  · rw [hstep]
    by_cases h : ap < hp
    · simp [h]
    · simp only [if_neg h]
      exact ⟨fun hEq => absurd hEq.symm hne, fun hlt => absurd hlt h⟩
  · intro hEq
    rw [hstep]
    simp only
    rw [if_neg (by omega)]

/-- Witness for C9 (amended): a blank row gets BState (20 over 10) recorded
and its completed flag set. -/
theorem C9_witness :
    (updateRow [extDone] rowBlank).completed = true ∧
    ((updateRow [extDone] rowBlank).winner = extDone.homeTeam ↔ (20 : Int) < 10) ∧
    ((10 : Int) = 20 → (updateRow [extDone] rowBlank).winner = extDone.awayTeam) :=
  C9_updater_winner_rule [extDone] rowBlank extDone 10 20 (by decide) (by decide)
    rfl rfl rfl (by decide) (by decide)

/-- Counterexample to C9 as stated: a row whose stored winner already equals
the computed winner is left untouched, so its completed flag is NOT set to
True even though the matched external game is completed with both scores. -/
theorem C9_counterexample :
    List.find? (matchesRow rowPrefilled) [extDone] = some extDone ∧
    extDone.completed = true ∧
    extDone.homePoints = some 10 ∧
    extDone.awayPoints = some 20 ∧
    updateRow [extDone] rowPrefilled = rowPrefilled ∧
    rowPrefilled.completed = false := by
  refine ⟨by decide, rfl, rfl, rfl, by decide, rfl⟩

/-- C1 (amended): against a games table with distinct game_ids, a pick row
matched to its game contributes the PICK row's stored `point_value` when the
game is completed and the selected team equals the recorded winner and 0
otherwise (this equals the game's point value whenever the two tables agree,
as the submission path guarantees at write time), and a user's total is the
sum of these contributions over their picks in the group. -/
theorem C1_contribution (picks : List Pick) (games : List Game) (grp : String)
    (p : Pick) (g : Game)
    (hnd : (games.map Game.game_id).Nodup) (hg : g ∈ games)
    (hid : g.game_id = p.game_id) :
    pickScore games p
      = (if g.completed = true ∧ p.selected_team = g.winner then p.point_value else 0) ∧
    (p.point_value = g.point_value →
      pickScore games p
        = (if g.completed = true ∧ p.selected_team = g.winner then g.point_value else 0)) ∧
    (∀ u t, (u, t) ∈ leaderboardTotals picks games grp →
      t = userTotal picks games grp u) := by
  have hfilter : games.filter (fun g2 => g2.game_id == p.game_id) = [g] := by
    rw [← hid]
    exact filter_id_eq_singleton games hnd hg
  have h1 : pickScore games p
      = (if g.completed = true ∧ p.selected_team = g.winner then p.point_value else 0) := by
    unfold pickScore
    rw [hfilter]
    simp only [List.map_cons, List.map_nil, List.sum_cons, List.sum_nil, add_zero]
    by_cases hc : g.completed = true ∧ p.selected_team = g.winner
    · rw [if_pos hc, if_pos (by simp [hc.1, hc.2])]
    · rw [if_neg hc, if_neg (by simp only [Bool.and_eq_true, beq_iff_eq]; exact hc)]
  refine ⟨h1, fun hpv => by rw [h1, hpv], ?_⟩
  intro u t hmem
  obtain ⟨a, _, hEq⟩ := List.mem_map.mp hmem
  rw [Prod.mk.injEq] at hEq
  rw [← hEq.2, hEq.1]

/-- Witness for C1 (amended) on a pick agreeing with its game's point value. -/
theorem C1_witness :
    pickScore [gSample] pAgree
      = (if gSample.completed = true ∧ pAgree.selected_team = gSample.winner
         then pAgree.point_value else 0) ∧
    pickScore [gSample] pAgree
      = (if gSample.completed = true ∧ pAgree.selected_team = gSample.winner
         then gSample.point_value else 0) :=
  ⟨(C1_contribution [pAgree] [gSample] "G" pAgree gSample (by decide) (by decide)
      (by decide)).1,
   (C1_contribution [pAgree] [gSample] "G" pAgree gSample (by decide) (by decide)
      (by decide)).2.1 (by decide)⟩

/-- Counterexample to C1 as stated: the contribution of a correct pick on a
completed game is the pick row's stored point_value (7), not the game's
point value (3). -/
theorem C1_counterexample :
    gSample.completed = true ∧
    pMismatch.selected_team = gSample.winner ∧
    gSample.game_id = pMismatch.game_id ∧
    gSample.point_value = 3 ∧
    pickScore [gSample] pMismatch = 7 ∧
    leaderboardTotals [pMismatch] [gSample] "G" = [("u", 7)] ∧
    (7 : Int) ≠ gSample.point_value := by
  refine ⟨rfl, rfl, rfl, rfl, by decide, by decide, by decide⟩

/-- C2: within one group's leaderboard response, a user with strictly more
total points has a strictly smaller rank number, and users with equal total
points receive equal rank (min-method ranking). -/
theorem C2_rank_monotone (fs : FS) (grp : String) (e1 e2 : LBEntry)
    (h1 : e1 ∈ api_leaderboard fs grp) (h2 : e2 ∈ api_leaderboard fs grp) :
    (e2.total_points < e1.total_points → e1.rank < e2.rank) ∧
    (e1.total_points = e2.total_points → e1.rank = e2.rank) := by
  cases hf : fs.picksFile with
  | none => simp only [api_leaderboard, hf] at h1; cases h1
  | some file =>
    simp only [api_leaderboard, hf] at h1 h2
    obtain ⟨a1, ha1, hE1⟩ := List.mem_map.mp h1
    obtain ⟨a2, ha2, hE2⟩ := List.mem_map.mp h2
    have ht1 : e1.total_points = a1.2 := by rw [← hE1]
    have hr1 : e1.rank = rankIn (sortByTotal (leaderboardTotals file (load_games fs) grp)) a1.2 := by
      rw [← hE1]
    have ht2 : e2.total_points = a2.2 := by rw [← hE2]
    have hr2 : e2.rank = rankIn (sortByTotal (leaderboardTotals file (load_games fs) grp)) a2.2 := by
      rw [← hE2]
    constructor
    · intro hlt
      rw [ht1, ht2] at hlt
      rw [hr1, hr2]
      unfold rankIn
      have hcount := length_filter_lt_of
        (p := fun v : String × Int => decide (a1.2 < v.2))
        (q := fun v : String × Int => decide (a2.2 < v.2))
        (fun v hv => by
          simp only [decide_eq_true_eq] at hv ⊢
          omega)
        (by simp only [decide_eq_true_eq]; exact hlt)
        (by simp)
        (sortByTotal (leaderboardTotals file (load_games fs) grp)) ha1
      omega
    · intro hEq
      have ha : a1.2 = a2.2 := by rw [← ht1, ← ht2, hEq]
      rw [hr1, hr2, ha]

/-- Witness for C2 on the two-user leaderboard of `fsTwoUsers`. -/
theorem C2_witness :
    (eBob.total_points < eAlice.total_points → eAlice.rank < eBob.rank) ∧
    (eAlice.total_points = eBob.total_points → eAlice.rank = eBob.rank) :=
  C2_rank_monotone fsTwoUsers "G" eAlice eBob (by decide) (by decide)

lemma ciMatch_key (grp u : String) :
    ∀ p q : Pick, pickKey p = pickKey q → (!ciMatch grp u p) = (!ciMatch grp u q) := by
  intro p q h
  simp only [pickKey, Prod.mk.injEq] at h
  simp [ciMatch, h.1, h.2.1]

lemma confirm_then_get (file : List Pick) (games : List Game) (grp u nm : String)
    (ps : List (String × String))
    (hnd : (ps.map Prod.fst).Nodup)
    (hall : ∀ pr ∈ ps, ∃ g ∈ games, g.game_id = pr.1) :
    getUserPicks (confirmPicksFile file games grp u nm ps) grp u
      = newPickRows games grp u nm ps := by
  unfold getUserPicks confirmPicksFile
  rw [ddl_filter_comm _ (fun p q h => by
    simp only [pickKey, Prod.mk.injEq] at h
    rw [h.1, h.2.1])]
  rw [List.filter_append]
  have hold : (removeUserRows file grp u).filter
      (fun p => p.group_name == grp && p.username == u) = [] := by
    rw [List.filter_eq_nil_iff]
    intro p hp
    have hci : (!ciMatch grp u p) = true := (List.mem_filter.mp hp).2
    intro hex
    rw [Bool.and_eq_true, beq_iff_eq, beq_iff_eq] at hex
    have hci' : ciMatch grp u p = true := by simp [ciMatch, hex.1, hex.2]
    rw [hci'] at hci
    cases hci
  have hnew : (newPickRows games grp u nm ps).filter
      (fun p => p.group_name == grp && p.username == u)
      = newPickRows games grp u nm ps := by
    rw [List.filter_eq_self]
    intro p hp
    obtain ⟨h1, h2⟩ := mem_newPickRows hp
    simp [h1, h2]
  rw [hold, hnew, List.nil_append]
  apply ddl_eq_self
  rw [newPickRows_keys ps hall]
  rw [show ps.map (fun pr => (grp, u, pr.1))
      = (ps.map Prod.fst).map (fun gid => (grp, u, gid)) by
    rw [List.map_map]
    rfl]
  exact List.Nodup.map (fun a b h => by simpa using h) hnd

/-- C3: after a successful `confirm_picks` call whose picks dictionary has
distinct game_ids all present in the games table, `get_user_picks` for that
group and username returns exactly one row per submitted game_id carrying the
submitted selected_team, in submission order. -/
theorem C3_submitted_pick_retrievable (fs : FS) (grp u nm : String) (tb : Option Int)
    (ps : List (String × String)) (tok : String) (fs2 : FS)
    (hok : api_confirm_picks fs grp u nm tb ps = some (tok, fs2))
    (hnd : (ps.map Prod.fst).Nodup)
    (hall : ∀ pr ∈ ps, ∃ g ∈ load_games fs, g.game_id = pr.1) :
    (getUserPicks (load_picks fs2) grp u).map (fun p => (p.game_id, p.selected_team))
      = ps := by
  obtain ⟨hpf, _⟩ := confirm_ok_spec hok
  have hlp : load_picks fs2
      = confirmPicksFile (load_picks fs) (load_games fs) grp u nm ps := by
    simp [load_picks, hpf]
  rw [hlp, confirm_then_get _ _ _ _ _ _ hnd hall, newPickRows_pairs ps hall]

/-- Witness for C3: bob's successful submission in `fsFresh` is retrievable
from `fsAfterConfirm`. -/
theorem C3_witness :
    (getUserPicks (load_picks fsAfterConfirm) "G" "bob").map
      (fun p => (p.game_id, p.selected_team)) = [("1", "Alpha"), ("2", "Gamma")] :=
  C3_submitted_pick_retrievable fsFresh "G" "bob" "Bob" none
    [("1", "Alpha"), ("2", "Gamma")] "tok1" fsAfterConfirm (by decide) (by decide)
    (by decide)

/-- C4 (amended): a successful `confirm_picks` call rewrites picks.csv by
dropping the user's previous rows (case-insensitively) and appending the new
rows; the result holds at most one row per (group_name, username, game_id)
key; and the rows of every other (group, username) pair are unchanged
PROVIDED the prior file already had at most one row per key (a duplicate row
of another pair is collapsed by the final deduplication — see the
counterexample). -/
theorem C4_write_semantics (fs : FS) (grp u nm : String) (tb : Option Int)
    (ps : List (String × String)) (tok : String) (fs2 : FS)
    (hok : api_confirm_picks fs grp u nm tb ps = some (tok, fs2))
    (hnd : ((load_picks fs).map pickKey).Nodup) :
    load_picks fs2 = confirmPicksFile (load_picks fs) (load_games fs) grp u nm ps ∧
    (load_picks fs2).filter (fun p => !ciMatch grp u p)
      = removeUserRows (load_picks fs) grp u ∧
    ((load_picks fs2).map pickKey).Nodup ∧
    (∀ p ∈ load_picks fs2, ciMatch grp u p = true →
      p ∈ newPickRows (load_games fs) grp u nm ps) := by
  obtain ⟨hpf, _⟩ := confirm_ok_spec hok
  have hlp : load_picks fs2
      = confirmPicksFile (load_picks fs) (load_games fs) grp u nm ps := by
    simp [load_picks, hpf]
  refine ⟨hlp, ?_, ?_, ?_⟩
  · rw [hlp]
    unfold confirmPicksFile
    rw [ddl_filter_comm _ (ciMatch_key grp u), List.filter_append]
    have hold : (removeUserRows (load_picks fs) grp u).filter
        (fun p => !ciMatch grp u p) = removeUserRows (load_picks fs) grp u := by
      rw [List.filter_eq_self]
      intro p hp
      exact (List.mem_filter.mp hp).2
    have hnew : (newPickRows (load_games fs) grp u nm ps).filter
        (fun p => !ciMatch grp u p) = [] := by
      rw [List.filter_eq_nil_iff]
      intro p hp
      obtain ⟨h1, h2⟩ := mem_newPickRows hp
      simp [ciMatch, h1, h2]
    rw [hold, hnew, List.append_nil]
    apply ddl_eq_self
    exact ((List.filter_sublist _).map pickKey).nodup hnd
  · rw [hlp]
    exact ddl_keys_nodup _
  · intro p hp hci
    rw [hlp] at hp
    have hp' := (ddl_sublist _).subset hp
    rcases List.mem_append.mp hp' with holdm | hnewm
    · exfalso
      have hneg := (List.mem_filter.mp holdm).2
      rw [hci] at hneg
      cases hneg
    · exact hnewm

/-- Witness for C4 (amended): bob's submission into `fsOtherSingle` leaves
carol's row untouched and yields a key-distinct file. -/
theorem C4_witness :
    load_picks fsOtherSingleRes
      = confirmPicksFile (load_picks fsOtherSingle) (load_games fsOtherSingle)
          "G" "bob" "Bob" [("1", "Alpha")] ∧
    (load_picks fsOtherSingleRes).filter (fun p => !ciMatch "G" "bob" p)
      = removeUserRows (load_picks fsOtherSingle) "G" "bob" ∧
    ((load_picks fsOtherSingleRes).map pickKey).Nodup := by
  have h := C4_write_semantics fsOtherSingle "G" "bob" "Bob" none [("1", "Alpha")]
    "tok2" fsOtherSingleRes (by decide) (by decide)
  exact ⟨h.1, h.2.1, h.2.2.1⟩

/-- Counterexample to C4 as stated: with a duplicate row of ANOTHER pair
already in picks.csv, a successful `confirm_picks` call collapses that pair's
two identical rows to one, so not every other-pair row is unchanged. -/
theorem C4_counterexample :
    api_confirm_picks fsDupOther "G" "bob" "Bob" none [("1", "Alpha")]
      = some ("tok2", fsDupOtherRes) ∧
    (load_picks fsDupOther).filter (fun p => !ciMatch "G" "bob" p)
      = [pOther, pOther] ∧
    (load_picks fsDupOtherRes).filter (fun p => !ciMatch "G" "bob" p)
      = [pOther] := by
  refine ⟨by decide, by decide, by decide⟩

/-- C6: when the winner endpoint declares a winner (championship complete,
championship game found, both scores parsed), the declared winner has maximal
total_points among the group's totals rows, and among rows tied on
total_points its tiebreaker error abs(tiebreaker - combined score) is
minimal; a user with no tiebreaker row is scored as guessing 9999. -/
theorem C6_winner_tiebreaker (fs : FS) (grp : String) (w : WinnerOut)
    (champ : Game) (hs aws : Int)
    (hfind : (load_games fs).find? isChampGame = some champ)
    (hhs : champ.home_score = some hs) (haws : champ.away_score = some aws)
    (hw : api_winner true fs grp = some w) :
    (∀ v ∈ winnerRows (load_picks fs) (load_games fs) (load_tiebreakers fs) grp (hs + aws),
       v.total ≤ w.total_points) ∧
    (∀ v ∈ winnerRows (load_picks fs) (load_games fs) (load_tiebreakers fs) grp (hs + aws),
       v.total = w.total_points → (w.tiebreaker - (hs + aws)).natAbs ≤ v.err) ∧
    (∀ v ∈ winnerRows (load_picks fs) (load_games fs) (load_tiebreakers fs) grp (hs + aws),
       tbLookup (load_tiebreakers fs) grp v.username = none → v.tb = 9999) := by
  simp only [api_winner, Bool.true_eq_false, if_false, hfind, hhs, haws] at hw
  by_cases he : (groupPicks (load_picks fs) grp).isEmpty = true
  · rw [if_pos he] at hw; cases hw
  · rw [if_neg he] at hw
    obtain ⟨w0, hhead, hwo⟩ := Option.map_eq_some'.mp hw
    have hle := head_wLE hhead
    have hw0mem : w0 ∈ winnerRows (load_picks fs) (load_games fs)
        (load_tiebreakers fs) grp (hs + aws) := by
      have hmem : w0 ∈ (winnerRows (load_picks fs) (load_games fs)
          (load_tiebreakers fs) grp (hs + aws)).insertionSort wLE := by
        cases hsort : (winnerRows (load_picks fs) (load_games fs)
            (load_tiebreakers fs) grp (hs + aws)).insertionSort wLE with
        | nil => rw [hsort] at hhead; cases hhead
        | cons a t =>
          rw [hsort] at hhead
          simp only [List.head?_cons, Option.some.injEq] at hhead
          rw [hhead]
          exact List.mem_cons_self _ _
      exact (List.perm_insertionSort wLE _).subset hmem
    have hwt : w.total_points = w0.total := by rw [← hwo]
    have hwtb : w.tiebreaker = w0.tb := by rw [← hwo]
    have herr : w0.err = (w0.tb - (hs + aws)).natAbs := by
      obtain ⟨k, _, hk⟩ := List.mem_map.mp hw0mem
      rw [← hk]
    refine ⟨?_, ?_, ?_⟩
    · intro v hv
      rw [hwt]
      rcases hle v hv with h | h
      · exact le_of_lt h
      · exact le_of_eq h.1.symm
    · intro v hv hvt
      rcases hle v hv with h | h
      · rw [hwt] at hvt; omega
      · rw [hwtb, ← herr]
        exact h.2
    · intro v hv hnone
      obtain ⟨k, _, hk⟩ := List.mem_map.mp hv
      rw [← hk] at hnone ⊢
      simp only at hnone ⊢
      rw [hnone]
      rfl

/-- Witness for C6 on the tied group of `fsTied` (alice error 1, bob error
11 against a combined score of 41). -/
theorem C6_witness :
    wrBob.total ≤ woAlice.total_points ∧
    (wrBob.total = woAlice.total_points →
      (woAlice.tiebreaker - ((21 : Int) + 20)).natAbs ≤ wrBob.err) := by
  have h := C6_winner_tiebreaker fsTied "G" woAlice gChamp 21 20 (by decide) rfl rfl
    (by decide)
  exact ⟨h.1 wrBob (by decide), h.2.1 wrBob (by decide)⟩

end BowlPickem
